import Mathlib

/-!
# Verification of the `howardmann/validation` request-validation pattern

Shallow embedding of the repository's validation layer:

* the validator factory `createValidator` (src/validation/createValidator.js),
* the API validation middleware `validateMiddleware`
  (src/validation/middlewares/validateMiddleware.js),
* the form validation middleware `validateForm`
  (src/validation/middlewares/validateForm.js),
* the centralized error handler `handleErrors` (src/middlewares/handleErrors.js),
* the flash-to-view bridge `flashMessageInViews`,
* the product and user schemas.

The underlying schema-validation engine (the external `joi` library) is an
external collaborator of the repository; it is modelled from the
specification's description of its observable contract
(`validate(payload, schema) -> Result`, field presence / type / numeric
bounds / string format rules, collect-all versus abort-early reporting).
Express request/response effects are modelled as explicit state on a `Conn`
record: the request body, the session-scoped flash store, the view locals,
whether the continuation `next` was called (and with which error), a pending
redirect and a pending JSON response.
-/

/-- A JavaScript value appearing in a request payload: a string or a number.
Numbers are modelled as rationals (enough for the price bounds used here). -/
inductive JValue where
  | str (s : String)
  | num (q : Rat)
deriving DecidableEq, Repr

/-- An untyped payload: a mapping from field names to values, as an
association list in field order. -/
abbrev Payload := List (String × JValue)

/-- One structured validation failure, as carried on the `details` list of a
rejection: human-readable message, path to the offending field, and the kind
of constraint violated. -/
structure ValidationFailure where
  message : String
  path : List String
  kind : String
deriving DecidableEq, Repr

/-- A JavaScript error value as seen by the middlewares and the error
handler.  `details` is `none` when the error carries no `details` property
(in JS: `err.details` is `undefined`); likewise for `statusCode`. -/
structure JsError where
  message : String
  details : Option (List ValidationFailure)
  statusCode : Option Nat
deriving DecidableEq, Repr

/-- The declared type of a schema field. -/
inductive FieldType where
  | jString
  | jNumber
deriving DecidableEq, Repr

/-- The rule attached to one schema field: declared type, required-ness,
numeric lower bound, minimum string length, email format flag, alphanumeric
flag, and an optional custom error message (Joi's `.error(...)`). -/
structure FieldRule where
  ftype : FieldType
  required : Bool := false
  minNum : Option Rat := none
  minLen : Option Nat := none
  email : Bool := false
  alphanum : Bool := false
  errorMsg : Option String := none
deriving DecidableEq, Repr

/-- A schema: field names with their rules, in declaration order. -/
abbrev Schema := List (String × FieldRule)

/-- Digits of a decimal literal, as a natural number; `none` when empty or
containing a non-digit. -/
def digitsToNat (cs : List Char) : Option Nat :=
  if cs.isEmpty || !cs.all Char.isDigit then none
  else some (cs.foldl (fun acc c => acc * 10 + (c.toNat - 48)) 0)

/-- Modelled from the spec: the engine's numeric coercion of string input
("fields coerced ... to declared types").  Parses an optionally signed
decimal literal. -/
def parseNum (s : String) : Option Rat :=
  let (neg, cs) :=
    match s.toList with
    | '-' :: rest => (true, rest)
    | cs => (false, cs)
  let intPart := cs.takeWhile (fun c => c != '.')
  let rest := cs.dropWhile (fun c => c != '.')
  let value :=
    match rest with
    | [] => (digitsToNat intPart).map (fun n => (n : Rat))
    | _ :: frac =>
      match digitsToNat intPart, digitsToNat frac with
      | some i, some f => some ((i : Rat) + mkRat (Int.ofNat f) (10 ^ frac.length))
      | _, _ => none
  value.map (fun q => if neg then -q else q)

/-- Modelled from the spec: the engine's email-format check
("string format"). -/
def isEmailString (s : String) : Bool :=
  match s.splitOn "@" with
  | [user, domain] => !user.isEmpty && !domain.isEmpty && domain.contains '.'
  | _ => false

/-- Modelled from the spec: the engine's alphanumeric check. -/
def isAlphanumString (s : String) : Bool :=
  !s.isEmpty && s.toList.all Char.isAlphanum

/-- Failure for a missing required field. -/
def requiredFailure (name : String) : ValidationFailure :=
  { message := s!"\"{name}\" is required", path := [name], kind := "any.required" }

/-- Failure for a non-numeric value in a number field. -/
def numberBaseFailure (name : String) : ValidationFailure :=
  { message := s!"\"{name}\" must be a number", path := [name], kind := "number.base" }

/-- Failure for a number below the declared minimum. -/
def numberMinFailure (name : String) (m : Rat) : ValidationFailure :=
  { message := s!"\"{name}\" must be larger than or equal to {m}",
    path := [name], kind := "number.min" }

/-- Failure for a non-string value in a string field. -/
def stringBaseFailure (name : String) : ValidationFailure :=
  { message := s!"\"{name}\" must be a string", path := [name], kind := "string.base" }

/-- Failure for a string shorter than the declared minimum length. -/
def stringMinFailure (name : String) (n : Nat) : ValidationFailure :=
  { message := s!"\"{name}\" length must be at least {n} characters long",
    path := [name], kind := "string.min" }

/-- Failure for a malformed email. -/
def emailFailure (name : String) : ValidationFailure :=
  { message := s!"\"{name}\" must be a valid email", path := [name], kind := "string.email" }

/-- Failure for a non-alphanumeric string. -/
def alphanumFailure (name : String) : ValidationFailure :=
  { message := s!"\"{name}\" must only contain alpha-numeric characters",
    path := [name], kind := "string.alphanum" }

/-- Failure for a payload key that the schema does not declare. -/
def allowUnknownFailure (name : String) : ValidationFailure :=
  { message := s!"\"{name}\" is not allowed", path := [name], kind := "object.allowUnknown" }

/-- Modelled from the spec: the failures a present value earns against its
field rule (type check, numeric bound, string format checks), in rule order. -/
def fieldFailures (name : String) (rule : FieldRule) (v : JValue) : List ValidationFailure :=
  match rule.ftype with
  | .jNumber =>
    match v with
    | .num q =>
      match rule.minNum with
      | some m => if q < m then [numberMinFailure name m] else []
      | none => []
    | .str _ => [numberBaseFailure name]
  | .jString =>
    match v with
    | .str s =>
      (if rule.email && !isEmailString s then [emailFailure name] else []) ++
      (match rule.minLen with
       | some n => if s.length < n then [stringMinFailure name n] else []
       | none => []) ++
      (if rule.alphanum && !isAlphanumString s then [alphanumFailure name] else [])
    | .num _ => [stringBaseFailure name]

/-- Apply a field rule's custom error message (Joi's `.error(...)`), which
replaces the message of every failure the field produced. -/
def applyErrorOverride (rule : FieldRule) (fails : List ValidationFailure) :
    List ValidationFailure :=
  match rule.errorMsg with
  | none => fails
  | some m => fails.map (fun f => { f with message := m })

/-- Modelled from the spec: the failures one declared schema field earns
against a payload — a required failure when absent, the value checks when
present. -/
def checkField (payload : Payload) (name : String) (rule : FieldRule) :
    List ValidationFailure :=
  applyErrorOverride rule
    (match payload.lookup name with
     | none => if rule.required then [requiredFailure name] else []
     | some v => fieldFailures name rule v)

/-- Modelled from the spec: failures for payload keys the schema does not
declare (the engine rejects unknown keys by default). -/
def unknownKeyFailures (schema : Schema) (payload : Payload) : List ValidationFailure :=
  (payload.filter (fun kv => (schema.lookup kv.1).isNone)).map
    (fun kv => allowUnknownFailure kv.1)

/-- Modelled from the spec: every failure of a payload against a schema,
field by field in schema order, then the unknown-key failures. -/
def collectFailures (schema : Schema) (payload : Payload) : List ValidationFailure :=
  (schema.map (fun kv => checkField payload kv.1 kv.2)).flatten ++
    unknownKeyFailures schema payload

/-- Modelled from the spec: the engine's normalization — a payload with each
declared field's value coerced to its declared type, other entries kept. -/
def coerceValue (rule : FieldRule) (v : JValue) : JValue :=
  match rule.ftype, v with
  | .jNumber, .str s =>
    match parseNum s with
    | some q => .num q
    | none => .str s
  | _, _ => v

/-- Coerce one payload entry: a declared field's value is coerced to its
declared type, an undeclared entry is kept as is. -/
def coerceEntry (schema : Schema) (kv : String × JValue) : String × JValue :=
  match schema.lookup kv.1 with
  | some rule => (kv.1, coerceValue rule kv.2)
  | none => kv

/-- Coerce every declared field of a payload (key order and unknown keys
preserved). -/
def coercePayload (schema : Schema) (payload : Payload) : Payload :=
  payload.map (coerceEntry schema)

/-- The engine options the repository cares about: whether validation stops
at the first failure. -/
structure JoiOptions where
  abortEarly : Bool
deriving DecidableEq, Repr

/-- Modelled from the spec: the engine's default options — by default it
aborts early, reporting only the first failure; collecting all failures must
be requested explicitly. -/
def joiDefaultOptions : JoiOptions := { abortEarly := true }

/-- Modelled from the spec: the external engine's
`validate(payload, schema, options) -> Result`.  Coerces the payload,
collects the failures; resolves with the normalized payload when there are
none, otherwise rejects with an error carrying a `details` list — only the
first failure when `abortEarly` is set, all of them otherwise. -/
def Joi.validate (payload : Payload) (schema : Schema) (options : JoiOptions) :
    Except JsError Payload :=
  let value := coercePayload schema payload
  let failures := collectFailures schema value
  if failures.isEmpty then
    .ok value
  else
    let reported := if options.abortEarly then failures.take 1 else failures
    .error { message := String.intercalate ". " (reported.map ValidationFailure.message),
             details := some reported,
             statusCode := none }

/-- src/validation/createValidator.js — the validator factory: binds a schema
to a validation function, explicitly requesting `abortEarly: false` so that
all error messages are shown instead of only the first. -/
def createValidator (schema : Schema) : Payload → Except JsError Payload :=
  fun payload => Joi.validate payload schema { abortEarly := false }

/-- productSchema: a reusable price rule, `Joi.number().min(0.01)`. -/
def priceSchema : FieldRule := { ftype := .jNumber, minNum := some (mkRat 1 100) }

/-- productSchema: schema for creating a product, all fields required. -/
def createProductSchema : Schema :=
  [("description", { ftype := .jString, required := true }),
   ("price", { priceSchema with required := true })]

/-- productSchema: schema for editing a product, all fields optional, custom
error message on the price rule. -/
def editProductSchema : Schema :=
  [("description", { ftype := .jString }),
   ("price", { priceSchema with
                 errorMsg := some "when editing price must be number greater than 0.01" })]

/-- src/validation/schemas/userSchema.js — the user signup schema: email,
name and password rules, none of them required. -/
def createUserSchema : Schema :=
  [("email", { ftype := .jString, email := true }),
   ("name", { ftype := .jString }),
   ("password", { ftype := .jString, minLen := some 7, alphanum := true })]

/-- The session-scoped flash store: a categorized queue of message batches,
in push order. -/
abbrev FlashStore := List (String × List String)

/-- All messages queued under one category, in order. -/
def FlashStore.get (s : FlashStore) (category : String) : List String :=
  ((s.filter (fun kv => kv.1 == category)).map (fun kv => kv.2)).flatten

/-- Remove every batch of one category. -/
def FlashStore.clear (s : FlashStore) (category : String) : FlashStore :=
  s.filter (fun kv => kv.1 != category)

/-- `req.flash(category)`: read-and-clear one category. -/
def FlashStore.drain (s : FlashStore) (category : String) : List String × FlashStore :=
  (s.get category, s.clear category)

/-- `req.flash(category, messages)`: queue messages under a category. -/
def FlashStore.push (s : FlashStore) (category : String) (messages : List String) : FlashStore :=
  s ++ [(category, messages)]

/-- The view-rendering context (`res.locals`): the three flash categories the
bridge middleware exposes to templates. -/
structure Locals where
  messageSuccess : List String
  messageFailure : List String
  validationFailure : List String
deriving DecidableEq, Repr

/-- The JSON body the error handler sends: `{statusCode, message}`. -/
structure JsonBody where
  statusCode : Nat
  message : String
deriving DecidableEq, Repr

/-- The observable request/response state threaded through a middleware:
request body, session flash store, view locals, whether (and with which
error) the continuation `next` was invoked, a pending redirect, and a
pending JSON response. -/
structure Conn where
  body : Payload
  session : FlashStore
  locals : Locals
  nextCall : Option (Option JsError)
  redirectTo : Option String
  responded : Option (Nat × JsonBody)
deriving DecidableEq, Repr

/-- `req.flash(category, messages)` on a connection. -/
def Conn.flashPush (c : Conn) (category : String) (messages : List String) : Conn :=
  { c with session := c.session.push category messages }

/-- `res.redirect(path)`. -/
def Conn.redirect (c : Conn) (path : String) : Conn :=
  { c with redirectTo := some path }

/-- `next()` / `next(err)`: invoke the continuation, with or without an
error. -/
def Conn.next (c : Conn) (e : Option JsError) : Conn :=
  { c with nextCall := some e }

/-- `res.status(code).send(body)`. -/
def Conn.respond (c : Conn) (status : Nat) (jsonBody : JsonBody) : Conn :=
  { c with responded := some (status, jsonBody) }

/-- src/validation/middlewares/validateMiddleware.js — the API validation
middleware: validate the body; on success replace the body and continue, on
failure pass the rejection to the continuation (`.catch(next)`). -/
def validateMiddleware (schema : Schema) (c : Conn) : Conn :=
  let payload := c.body
  let validate := createValidator schema
  match validate payload with
  | .ok validated => ({ c with body := validated }).next none
  | .error err => c.next (some err)

/-- src/validation/middlewares/validateForm.js, the `.catch` handler: it
evaluates `err.details.map(el => el.message)` unconditionally, so it throws
a TypeError when the rejection carries no `details`; otherwise it flashes
the mapped messages under "validationFailure" and redirects. -/
def validateFormCatch (redirectPath : String) (err : JsError) (c : Conn) :
    Except String Conn :=
  match err.details with
  | none => .error "TypeError: Cannot read property map of undefined"
  | some details =>
    let errorMessages := details.map (fun el => el.message)
    .ok ((c.flashPush "validationFailure" errorMessages).redirect redirectPath)

/-- src/validation/middlewares/validateForm.js — the form validation
middleware: validate the body; on success replace the body and continue, on
failure flash the failure messages and redirect to `redirectPath`. -/
def validateForm (schema : Schema) (redirectPath : String) (c : Conn) :
    Except String Conn :=
  let payload := c.body
  let validate := createValidator schema
  match validate payload with
  | .ok validated => .ok (({ c with body := validated }).next none)
  | .error err => validateFormCatch redirectPath err c

/-- JavaScript falsiness of an optional numeric property
(`!err.statusCode`): true when absent (`undefined`) or zero. -/
def falsyNum : Option Nat → Bool
  | none => true
  | some 0 => true
  | some _ => false

/-- src/middlewares/handleErrors.js — the centralized error handler: with an
error, default its `statusCode` to 500 when unset (mutating the error
object, returned as the second component) and respond with
`{statusCode, message}` under that status; with no error, call the
continuation. -/
def handleErrors (err : Option JsError) (c : Conn) : Conn × Option JsError :=
  match err with
  | some e =>
    let e2 := if falsyNum e.statusCode then { e with statusCode := some 500 } else e
    let code := e2.statusCode.getD 500
    (c.respond code { statusCode := code, message := e2.message }, some e2)
  | none => (c.next none, none)

/-- The flash-to-view bridge middleware: drain the three flash categories
into `res.locals` under the same names, then continue. -/
def flashMessageInViews (c : Conn) : Conn :=
  let (ms, s1) := c.session.drain "messageSuccess"
  let (mf, s2) := s1.drain "messageFailure"
  let (vf, s3) := s2.drain "validationFailure"
  ({ c with session := s3,
            locals := { messageSuccess := ms, messageFailure := mf,
                        validationFailure := vf } }).next none

/-- The POST /signup route handler behind the form middleware: flash a
success message and redirect to /signup. -/
def signupSuccessHandler (c : Conn) : Conn :=
  (c.flashPush "messageSuccess" ["woohoo"]).redirect "/signup"

/-- The POST /signup pipeline: the form validation middleware for the user
schema with redirect path /signup, then — when the middleware invoked the
continuation without error — the success handler. -/
def postSignup (c : Conn) : Except String Conn :=
  match validateForm createUserSchema "/signup" c with
  | .error msg => .error msg
  | .ok c2 => if c2.nextCall = some none then .ok (signupSuccessHandler c2) else .ok c2

/-- A fresh connection carrying a request body: empty session, empty locals,
no continuation call, no redirect, no response yet. -/
def connOf (p : Payload) : Conn :=
  { body := p, session := [],
    locals := { messageSuccess := [], messageFailure := [], validationFailure := [] },
    nextCall := none, redirectTo := none, responded := none }

/-! ## Basic lemmas about the embedded definitions -/

/-- `createValidator` unfolded: coerce, collect all failures (the
`abortEarly: false` configuration keeps the whole list), succeed when there
are none. -/
theorem createValidator_eq (schema : Schema) (p : Payload) :
    createValidator schema p =
      if (collectFailures schema (coercePayload schema p)).isEmpty then
        Except.ok (coercePayload schema p)
      else
        Except.error
          { message := String.intercalate ". "
              ((collectFailures schema (coercePayload schema p)).map ValidationFailure.message),
            details := some (collectFailures schema (coercePayload schema p)),
            statusCode := none } := rfl

/-- Success of `createValidator` means: no failure was collected and the
result is the coerced payload. -/
theorem createValidator_ok_iff (schema : Schema) (p v : Payload) :
    createValidator schema p = Except.ok v ↔
      collectFailures schema (coercePayload schema p) = [] ∧ v = coercePayload schema p := by
  constructor
  · intro h
    by_cases hf : (collectFailures schema (coercePayload schema p)).isEmpty = true
    · rw [createValidator_eq, if_pos hf] at h
      injection h with h2
      exact ⟨by simpa using hf, h2.symm⟩
    · rw [createValidator_eq, if_neg hf] at h
      exact Except.noConfusion h
  · rintro ⟨hfail, rfl⟩
    rw [createValidator_eq, if_pos (by simp [hfail])]

/-- With at least one collected failure, `createValidator` rejects with the
whole failure list on `details`. -/
theorem createValidator_error_of_failures (schema : Schema) (p : Payload)
    (h : collectFailures schema (coercePayload schema p) ≠ []) :
    createValidator schema p =
      Except.error
        { message := String.intercalate ". "
            ((collectFailures schema (coercePayload schema p)).map ValidationFailure.message),
          details := some (collectFailures schema (coercePayload schema p)),
          statusCode := none } := by
  rw [createValidator_eq, if_neg (by simpa using h)]

/-- Every rejection produced by `createValidator` carries a `details` list. -/
theorem createValidator_error_details_ne_none (schema : Schema) (p : Payload) (e : JsError)
    (h : createValidator schema p = Except.error e) : e.details ≠ none := by
  by_cases hf : (collectFailures schema (coercePayload schema p)).isEmpty = true
  · rw [createValidator_eq, if_pos hf] at h
    exact Except.noConfusion h
  · rw [createValidator_eq, if_neg hf] at h
    injection h with h2
    rw [← h2]
    simp

/-- Coercing an entry does not change its key. -/
theorem coerceEntry_fst (schema : Schema) (kv : String × JValue) :
    (coerceEntry schema kv).1 = kv.1 := by
  unfold coerceEntry
  cases h : schema.lookup kv.1 <;> rfl

/-- Value coercion is idempotent. -/
theorem coerceValue_idem (rule : FieldRule) (v : JValue) :
    coerceValue rule (coerceValue rule v) = coerceValue rule v := by
  rcases rule with ⟨ft, req, mn, ml, em, an, eo⟩
  cases ft with
  | jString => cases v <;> rfl
  | jNumber =>
    cases v with
    | num q => rfl
    | str s =>
      cases hp : parseNum s with
      | none => simp [coerceValue, hp]
      | some q => simp [coerceValue, hp]

/-- Entry coercion is idempotent. -/
theorem coerceEntry_idem (schema : Schema) (kv : String × JValue) :
    coerceEntry schema (coerceEntry schema kv) = coerceEntry schema kv := by
  rcases kv with ⟨k, v⟩
  cases h : schema.lookup k with
  | none => simp [coerceEntry, h]
  | some rule => simp [coerceEntry, h, coerceValue_idem]

/-- Payload coercion is idempotent: a normalized payload is left unchanged
by a second normalization. -/
theorem coercePayload_idem (schema : Schema) (p : Payload) :
    coercePayload schema (coercePayload schema p) = coercePayload schema p := by
  unfold coercePayload
  rw [List.map_map]
  exact List.map_congr_left (fun kv _ => coerceEntry_idem schema kv)

/-- Coercion preserves key absence. -/
theorem lookup_coercePayload_none (schema : Schema) (p : Payload) (k : String)
    (h : p.lookup k = none) : (coercePayload schema p).lookup k = none := by
  induction p with
  | nil => rfl
  | cons hd tl ih =>
    rcases hd with ⟨hk, hv⟩
    rcases hce : coerceEntry schema (hk, hv) with ⟨ck, cv⟩
    have hck : ck = hk := by
      have hfst := coerceEntry_fst schema (hk, hv)
      rw [hce] at hfst
      exact hfst
    simp only [List.lookup] at h
    simp only [coercePayload, List.map_cons, hce]
    simp only [List.lookup, hck]
    cases hbk : k == hk
    · simp only [hbk] at h ⊢
      exact ih h
    · simp only [hbk] at h
      exact Option.noConfusion h

/-- A custom error message never empties a failure list. -/
theorem applyErrorOverride_ne_nil (rule : FieldRule) (l : List ValidationFailure)
    (h : l ≠ []) : applyErrorOverride rule l ≠ [] := by
  unfold applyErrorOverride
  split
  · exact h
  · simpa using h

/-- A custom error message keeps each failure's path. -/
theorem path_eq_of_mem_applyErrorOverride (rule : FieldRule)
    (l : List ValidationFailure) (x : ValidationFailure)
    (hx : x ∈ applyErrorOverride rule l) : ∃ y ∈ l, x.path = y.path := by
  unfold applyErrorOverride at hx
  split at hx
  · exact ⟨x, hx, rfl⟩
  · rcases List.mem_map.1 hx with ⟨y, hy, hxy⟩
    exact ⟨y, hy, by rw [← hxy]⟩

/-- Every failure a field's value checks produce points at that field. -/
theorem path_of_mem_fieldFailures (name : String) (rule : FieldRule) (v : JValue)
    (x : ValidationFailure) (hx : x ∈ fieldFailures name rule v) : x.path = [name] := by
  rcases rule with ⟨ft, req, mn, ml, em, an, eo⟩
  cases ft with
  | jNumber =>
    cases v with
    | str s =>
      simp only [fieldFailures] at hx
      rw [List.mem_singleton.1 hx]
      rfl
    | num q =>
      simp only [fieldFailures] at hx
      split at hx
      · split at hx
        · rw [List.mem_singleton.1 hx]
          rfl
        · exact absurd hx (List.not_mem_nil x)
      · exact absurd hx (List.not_mem_nil x)
  | jString =>
    cases v with
    | num q =>
      simp only [fieldFailures] at hx
      rw [List.mem_singleton.1 hx]
      rfl
    | str s =>
      simp only [fieldFailures, List.mem_append] at hx
      rcases hx with (hx | hx) | hx
      · split at hx
        · rw [List.mem_singleton.1 hx]
          rfl
        · exact absurd hx (List.not_mem_nil x)
      · split at hx
        · split at hx
          · rw [List.mem_singleton.1 hx]
            rfl
          · exact absurd hx (List.not_mem_nil x)
        · exact absurd hx (List.not_mem_nil x)
      · split at hx
        · rw [List.mem_singleton.1 hx]
          rfl
        · exact absurd hx (List.not_mem_nil x)

/-- Every failure one schema field produces points at that field. -/
theorem path_of_mem_checkField (p : Payload) (k : String) (r : FieldRule)
    (x : ValidationFailure) (hx : x ∈ checkField p k r) : x.path = [k] := by
  unfold checkField at hx
  rcases path_eq_of_mem_applyErrorOverride _ _ _ hx with ⟨y, hy, hpath⟩
  rw [hpath]
  split at hy
  · split at hy
    · rw [List.mem_singleton.1 hy]
      rfl
    · exact absurd hy (List.not_mem_nil y)
  · exact path_of_mem_fieldFailures _ _ _ _ hy

/-- A failure of one declared field is among the collected failures. -/
theorem mem_collectFailures (schema : Schema) (p : Payload) (k : String) (r : FieldRule)
    (hmem : (k, r) ∈ schema) (x : ValidationFailure) (hx : x ∈ checkField p k r) :
    x ∈ collectFailures schema p := by
  unfold collectFailures
  refine List.mem_append_left _ ?_
  refine List.mem_flatten.2 ⟨checkField p k r, ?_, hx⟩
  have hmap := List.mem_map_of_mem
    (fun kv : String × FieldRule => checkField p kv.1 kv.2) hmem
  simpa using hmap

/-- A failing declared field makes the collected failure list non-empty. -/
theorem collectFailures_ne_nil (schema : Schema) (p : Payload) (k : String) (r : FieldRule)
    (hmem : (k, r) ∈ schema) (hne : checkField p k r ≠ []) :
    collectFailures schema p ≠ [] := by
  rcases List.exists_mem_of_ne_nil _ hne with ⟨x, hx⟩
  have hxc := mem_collectFailures schema p k r hmem x hx
  intro h0
  rw [h0] at hxc
  exact List.not_mem_nil x hxc

/-- A missing required field produces exactly its required failure (modulo a
custom error message). -/
theorem checkField_absent_required (p : Payload) (name : String) (rule : FieldRule)
    (habs : p.lookup name = none) (hreq : rule.required = true) :
    checkField p name rule = applyErrorOverride rule [requiredFailure name] := by
  unfold checkField
  rw [habs, hreq]
  rfl

/-- Clearing one category leaves every other category's messages intact. -/
theorem FlashStore.get_clear_ne (s : FlashStore) (a b : String) (h : a ≠ b) :
    (s.clear a).get b = s.get b := by
  unfold FlashStore.clear FlashStore.get
  suffices hs : (s.filter (fun kv => kv.1 != a)).filter (fun kv => kv.1 == b) =
      s.filter (fun kv => kv.1 == b) by
    rw [hs]
  induction s with
  | nil => rfl
  | cons hd tl ih =>
    by_cases hba : hd.1 = a
    · have h1 : (hd.1 != a) = false := by simp [hba]
      have h2 : (hd.1 == b) = false := by
        rw [hba]
        exact beq_eq_false_iff_ne.mpr h
      simp [List.filter_cons, h1, h2, ih]
    · have h1 : (hd.1 != a) = true := by simp [hba]
      simp [List.filter_cons, h1, ih]

/-- Pushing under one category leaves every other category's messages
intact. -/
theorem FlashStore.get_push_ne (s : FlashStore) (a b : String) (msgs : List String)
    (h : a ≠ b) : (s.push a msgs).get b = s.get b := by
  unfold FlashStore.push FlashStore.get
  rw [List.filter_append]
  have h1 : List.filter (fun kv => kv.1 == b) [(a, msgs)] = [] := by
    simp [beq_eq_false_iff_ne.mpr h]
  rw [h1, List.append_nil]

/-- The API validation middleware, unfolded to its two outcomes. -/
theorem validateMiddleware_eq (schema : Schema) (c : Conn) :
    validateMiddleware schema c =
      match createValidator schema c.body with
      | .ok validated => { c with body := validated, nextCall := some none }
      | .error err => { c with nextCall := some (some err) } := rfl

/-- The form validation middleware, unfolded to its two outcomes. -/
theorem validateForm_eq (schema : Schema) (redirectPath : String) (c : Conn) :
    validateForm schema redirectPath c =
      match createValidator schema c.body with
      | .ok validated => Except.ok { c with body := validated, nextCall := some none }
      | .error err => validateFormCatch redirectPath err c := rfl

/-- The flash-to-view bridge, unfolded: drain the three categories in order,
expose them in the locals, call the continuation. -/
theorem flashMessageInViews_eq (c : Conn) :
    flashMessageInViews c =
      { c with
        session :=
          ((c.session.clear "messageSuccess").clear "messageFailure").clear "validationFailure",
        locals :=
          { messageSuccess := c.session.get "messageSuccess",
            messageFailure := (c.session.clear "messageSuccess").get "messageFailure",
            validationFailure :=
              ((c.session.clear "messageSuccess").clear "messageFailure").get
                "validationFailure" },
        nextCall := some none } := rfl

/-- The engine under its default options, unfolded: abort-early keeps only
the first collected failure. -/
theorem joiValidate_default_eq (schema : Schema) (p : Payload) :
    Joi.validate p schema joiDefaultOptions =
      if (collectFailures schema (coercePayload schema p)).isEmpty then
        Except.ok (coercePayload schema p)
      else
        Except.error
          { message := String.intercalate ". "
              (((collectFailures schema (coercePayload schema p)).take 1).map
                ValidationFailure.message),
            details := some ((collectFailures schema (coercePayload schema p)).take 1),
            statusCode := none } := rfl

/-- Under the engine's default options a rejection reports at most one
failure. -/
theorem joiValidate_default_details_short (schema : Schema) (p : Payload) (e : JsError)
    (ds : List ValidationFailure)
    (he : Joi.validate p schema joiDefaultOptions = Except.error e)
    (hds : e.details = some ds) : ds.length ≤ 1 := by
  rw [joiValidate_default_eq] at he
  split at he
  · exact Except.noConfusion he
  · injection he with he2
    rw [← he2] at hds
    have hds2 : some ((collectFailures schema (coercePayload schema p)).take 1) = some ds := hds
    injection hds2 with hds3
    rw [← hds3]
    exact List.length_take_le 1 _

/-! ## Claim theorems -/

/-- C2: for every schema and request, the API validation middleware replaces
the body with the normalized payload and calls the continuation with no
error on success; on failure it calls the continuation with the rejection
error unchanged (which carries its `details` list); in neither case does it
redirect or touch the flash store. -/
theorem validateMiddleware_spec (schema : Schema) (c : Conn) :
    (∀ v, createValidator schema c.body = Except.ok v →
      validateMiddleware schema c = { c with body := v, nextCall := some none }) ∧
    (∀ e, createValidator schema c.body = Except.error e →
      validateMiddleware schema c = { c with nextCall := some (some e) } ∧
      e.details ≠ none) ∧
    (validateMiddleware schema c).redirectTo = c.redirectTo ∧
    (validateMiddleware schema c).session = c.session := by
  refine ⟨?_, ?_, ?_, ?_⟩
  · intro v hv
    rw [validateMiddleware_eq, hv]
  · intro e he
    rw [validateMiddleware_eq, he]
    exact ⟨rfl, createValidator_error_details_ne_none schema c.body e he⟩
  · rw [validateMiddleware_eq]
    cases createValidator schema c.body <;> rfl
  · rw [validateMiddleware_eq]
    cases createValidator schema c.body <;> rfl

/-- A well-formed product payload, and the same payload missing both
required fields (for the middleware witnesses). -/
def apiOkBody : Payload := [("description", JValue.str "red book"), ("price", JValue.num 1)]

/-- The rejection `createValidator createProductSchema` produces on the
empty payload: one required failure per missing field. -/
def prodEmptyDetails : List ValidationFailure :=
  [requiredFailure "description", requiredFailure "price"]

/-- The rejection error on the empty product payload. -/
def prodEmptyError : JsError :=
  { message := String.intercalate ". " (prodEmptyDetails.map ValidationFailure.message),
    details := some prodEmptyDetails, statusCode := none }

theorem validateMiddleware_spec_witness :
    createValidator createProductSchema apiOkBody = Except.ok apiOkBody ∧
    validateMiddleware createProductSchema (connOf apiOkBody) =
      { connOf apiOkBody with body := apiOkBody, nextCall := some none } ∧
    createValidator createProductSchema [] = Except.error prodEmptyError ∧
    validateMiddleware createProductSchema (connOf []) =
      { connOf [] with nextCall := some (some prodEmptyError) } := by
  refine ⟨rfl, ?_, rfl, ?_⟩
  · exact (validateMiddleware_spec createProductSchema (connOf apiOkBody)).1 apiOkBody rfl
  · exact ((validateMiddleware_spec createProductSchema (connOf [])).2.1 prodEmptyError rfl).1

/-- C3: for every schema, redirect path and invalid body, the form
validation middleware maps each failure of the rejection's `details` to its
message, pushes that ordered list into the flash store under
"validationFailure", redirects to the redirect path, and neither calls the
continuation nor responds (so the centralized error handler is never
reached). -/
theorem validateForm_spec (schema : Schema) (redirectPath : String) (c : Conn)
    (e : JsError) (ds : List ValidationFailure)
    (h : createValidator schema c.body = Except.error e)
    (hds : e.details = some ds) :
    ∃ c2, validateForm schema redirectPath c = Except.ok c2 ∧
      c2.session = c.session.push "validationFailure" (ds.map (fun el => el.message)) ∧
      c2.redirectTo = some redirectPath ∧
      c2.nextCall = c.nextCall ∧
      c2.responded = c.responded ∧
      c2.body = c.body := by
  have hcall : validateForm schema redirectPath c = validateFormCatch redirectPath e c := by
    rw [validateForm_eq, h]
  have hcatch : validateFormCatch redirectPath e c =
      Except.ok ((c.flashPush "validationFailure"
        (ds.map (fun el => el.message))).redirect redirectPath) := by
    unfold validateFormCatch
    rw [hds]
  refine ⟨_, hcall.trans hcatch, ?_, ?_, ?_, ?_, ?_⟩ <;> rfl

/-- An invalid signup body: a too-short password. -/
def userShortPwBody : Payload := [("password", JValue.str "short")]

/-- Its failure list: only the password length failure. -/
def userShortPwDetails : List ValidationFailure := [stringMinFailure "password" 7]

/-- The rejection error on the short-password signup body. -/
def userShortPwError : JsError :=
  { message := String.intercalate ". " (userShortPwDetails.map ValidationFailure.message),
    details := some userShortPwDetails, statusCode := none }

theorem validateForm_spec_witness :
    createValidator createUserSchema userShortPwBody = Except.error userShortPwError ∧
    ∃ c2, validateForm createUserSchema "/signup" (connOf userShortPwBody) = Except.ok c2 ∧
      c2.session = FlashStore.push [] "validationFailure"
        (userShortPwDetails.map (fun el => el.message)) ∧
      c2.redirectTo = some "/signup" ∧
      c2.nextCall = none ∧
      c2.responded = none ∧
      c2.body = userShortPwBody := by
  refine ⟨rfl, ?_⟩
  exact validateForm_spec createUserSchema "/signup" (connOf userShortPwBody)
    userShortPwError userShortPwDetails rfl rfl

/-- C9: the form middleware's catch handler evaluates `err.details.map`
unconditionally: on a rejection without `details` it throws a TypeError
itself instead of flashing and redirecting; with `details` present it
flashes the mapped messages and redirects. -/
theorem validateFormCatch_spec (redirectPath : String) (err : JsError) (c : Conn) :
    (err.details = none →
      validateFormCatch redirectPath err c =
        Except.error "TypeError: Cannot read property map of undefined") ∧
    (∀ ds, err.details = some ds →
      validateFormCatch redirectPath err c =
        Except.ok ((c.flashPush "validationFailure"
          (ds.map (fun el => el.message))).redirect redirectPath)) := by
  constructor
  · intro h
    unfold validateFormCatch
    rw [h]
  · intro ds h
    unfold validateFormCatch
    rw [h]

/-- An error value with no `details` property. -/
def noDetailsError : JsError := { message := "boom", details := none, statusCode := none }

theorem validateFormCatch_spec_witness :
    validateFormCatch "/signup" noDetailsError (connOf []) =
      Except.error "TypeError: Cannot read property map of undefined" ∧
    validateFormCatch "/signup" userShortPwError (connOf []) =
      Except.ok (((connOf []).flashPush "validationFailure"
        (userShortPwDetails.map (fun el => el.message))).redirect "/signup") := by
  constructor
  · exact (validateFormCatch_spec "/signup" noDetailsError (connOf [])).1 rfl
  · exact (validateFormCatch_spec "/signup" userShortPwError (connOf [])).2
      userShortPwDetails rfl

/-- C4: the centralized error handler responds with status 500 and body
`{statusCode: 500, message: err.message}` when the error has no status code,
responds with status 400 and that status in the body when the error carries
statusCode 400, and calls the continuation instead of responding when no
error is present. -/
theorem handleErrors_spec (e : JsError) (c : Conn) :
    (e.statusCode = none →
      handleErrors (some e) c =
        ({ c with responded := some (500, { statusCode := 500, message := e.message }) },
          some { e with statusCode := some 500 })) ∧
    (e.statusCode = some 400 →
      handleErrors (some e) c =
        ({ c with responded := some (400, { statusCode := 400, message := e.message }) },
          some e)) ∧
    handleErrors none c = ({ c with nextCall := some none }, none) := by
  rcases e with ⟨msg, det, sc⟩
  refine ⟨?_, ?_, rfl⟩
  · intro h
    have h2 : sc = none := h
    subst h2
    rfl
  · intro h
    have h2 : sc = some 400 := h
    subst h2
    rfl

/-- An error carrying statusCode 400. -/
def badRequestError : JsError := { message := "bad", details := none, statusCode := some 400 }

theorem handleErrors_spec_witness :
    handleErrors (some noDetailsError) (connOf []) =
      ({ connOf [] with responded := some (500, { statusCode := 500, message := "boom" }) },
        some { noDetailsError with statusCode := some 500 }) ∧
    handleErrors (some badRequestError) (connOf []) =
      ({ connOf [] with responded := some (400, { statusCode := 400, message := "bad" }) },
        some badRequestError) ∧
    handleErrors none (connOf []) = ({ connOf [] with nextCall := some none }, none) := by
  refine ⟨?_, ?_, ?_⟩
  · exact (handleErrors_spec noDetailsError (connOf [])).1 rfl
  · exact (handleErrors_spec badRequestError (connOf [])).2.1 rfl
  · exact (handleErrors_spec badRequestError (connOf [])).2.2

/-- C10: with an error lacking a statusCode, the centralized error handler
mutates the error object itself, setting `statusCode` to 500 rather than
leaving it unchanged; and whenever the handler responds, the error object
carries exactly the numeric statusCode used as the response status. -/
theorem handleErrors_mutates_spec (e : JsError) (c : Conn) :
    (e.statusCode = none →
      (handleErrors (some e) c).2 = some { e with statusCode := some 500 } ∧
      (handleErrors (some e) c).2 ≠ some e) ∧
    (∀ s b, (handleErrors (some e) c).1.responded = some (s, b) →
      ∃ e2, (handleErrors (some e) c).2 = some e2 ∧ e2.statusCode = some s ∧
        b.statusCode = s) := by
  rcases e with ⟨msg, det, sc⟩
  constructor
  · intro h
    have h2 : sc = none := h
    subst h2
    refine ⟨rfl, ?_⟩
    intro hcontra
    have h3 : some ({ message := msg, details := det, statusCode := some 500 } : JsError) =
        some { message := msg, details := det, statusCode := none } := hcontra
    simp at h3
  · intro s b hresp
    cases sc with
    | none =>
      have hresp2 : some ((500 : Nat), ({ statusCode := 500, message := msg } : JsonBody)) =
          some (s, b) := hresp
      injection hresp2 with h5
      injection h5 with h6 h7
      refine ⟨{ message := msg, details := det, statusCode := some 500 }, rfl, ?_, ?_⟩
      · rw [← h6]
      · rw [← h7, ← h6]
    | some n =>
      cases n with
      | zero =>
        have hresp2 : some ((500 : Nat), ({ statusCode := 500, message := msg } : JsonBody)) =
            some (s, b) := hresp
        injection hresp2 with h5
        injection h5 with h6 h7
        refine ⟨{ message := msg, details := det, statusCode := some 500 }, rfl, ?_, ?_⟩
        · rw [← h6]
        · rw [← h7, ← h6]
      | succ k =>
        have hresp2 : some ((k + 1 : Nat), ({ statusCode := k + 1, message := msg } : JsonBody)) =
            some (s, b) := hresp
        injection hresp2 with h5
        injection h5 with h6 h7
        refine ⟨{ message := msg, details := det, statusCode := some (k + 1) }, rfl, ?_, ?_⟩
        · rw [← h6]
        · rw [← h7, ← h6]

theorem handleErrors_mutates_spec_witness :
    ((handleErrors (some noDetailsError) (connOf [])).2 =
        some { noDetailsError with statusCode := some 500 } ∧
      (handleErrors (some noDetailsError) (connOf [])).2 ≠ some noDetailsError) ∧
    (∃ e2, (handleErrors (some noDetailsError) (connOf [])).2 = some e2 ∧
      e2.statusCode = some 500 ∧
      ({ statusCode := 500, message := "boom" } : JsonBody).statusCode = 500) := by
  constructor
  · exact (handleErrors_mutates_spec noDetailsError (connOf [])).1 rfl
  · exact (handleErrors_mutates_spec noDetailsError (connOf [])).2 500
      { statusCode := 500, message := "boom" } rfl

/-- C5: on every request the flash-to-view bridge drains exactly the three
categories "messageSuccess", "messageFailure" and "validationFailure" from
the session, copies each drained list into the view context under the same
name, leaves every other category untouched, and always calls the
continuation. -/
theorem flashMessageInViews_spec (c : Conn) :
    (flashMessageInViews c).locals.messageSuccess = c.session.get "messageSuccess" ∧
    (flashMessageInViews c).locals.messageFailure = c.session.get "messageFailure" ∧
    (flashMessageInViews c).locals.validationFailure = c.session.get "validationFailure" ∧
    (flashMessageInViews c).session =
      ((c.session.clear "messageSuccess").clear "messageFailure").clear "validationFailure" ∧
    (∀ category, category ≠ "messageSuccess" → category ≠ "messageFailure" →
      category ≠ "validationFailure" →
      (flashMessageInViews c).session.get category = c.session.get category) ∧
    (flashMessageInViews c).nextCall = some none ∧
    (flashMessageInViews c).redirectTo = c.redirectTo ∧
    (flashMessageInViews c).responded = c.responded := by
  refine ⟨rfl, ?_, ?_, rfl, ?_, rfl, rfl, rfl⟩
  · show (c.session.clear "messageSuccess").get "messageFailure" =
      c.session.get "messageFailure"
    exact FlashStore.get_clear_ne c.session "messageSuccess" "messageFailure" (by decide)
  · show ((c.session.clear "messageSuccess").clear "messageFailure").get "validationFailure" =
      c.session.get "validationFailure"
    rw [FlashStore.get_clear_ne (c.session.clear "messageSuccess") "messageFailure"
      "validationFailure" (by decide)]
    exact FlashStore.get_clear_ne c.session "messageSuccess" "validationFailure" (by decide)
  · intro category h1 h2 h3
    show (((c.session.clear "messageSuccess").clear "messageFailure").clear
      "validationFailure").get category = c.session.get category
    rw [FlashStore.get_clear_ne ((c.session.clear "messageSuccess").clear "messageFailure")
      "validationFailure" category (Ne.symm h3)]
    rw [FlashStore.get_clear_ne (c.session.clear "messageSuccess") "messageFailure"
      category (Ne.symm h2)]
    exact FlashStore.get_clear_ne c.session "messageSuccess" category (Ne.symm h1)

/-- A connection whose session holds a pending success flash and a custom
category the bridge does not drain. -/
def demoFlashConn : Conn :=
  { connOf [] with session := [("messageSuccess", ["yay"]), ("custom", ["keep"])] }

theorem flashMessageInViews_spec_witness :
    (flashMessageInViews demoFlashConn).locals.messageSuccess = ["yay"] ∧
    (flashMessageInViews demoFlashConn).session.get "custom" = ["keep"] ∧
    (flashMessageInViews demoFlashConn).nextCall = some none := by
  refine ⟨?_, ?_, ?_⟩
  · rw [(flashMessageInViews_spec demoFlashConn).1]
    rfl
  · rw [(flashMessageInViews_spec demoFlashConn).2.2.2.2.1 "custom"
      (by decide) (by decide) (by decide)]
    rfl
  · exact (flashMessageInViews_spec demoFlashConn).2.2.2.2.2.1

/-- C6: validation is idempotent — when the validator resolves with a
normalized payload, running the same validator on that normalized payload
resolves again with the very same payload. -/
theorem createValidator_idempotent (schema : Schema) (p v : Payload)
    (h : createValidator schema p = Except.ok v) :
    createValidator schema v = Except.ok v := by
  rcases (createValidator_ok_iff schema p v).1 h with ⟨hfail, hv⟩
  subst hv
  apply (createValidator_ok_iff schema _ _).2
  constructor
  · rw [coercePayload_idem]
    exact hfail
  · rw [coercePayload_idem]

/-- A product body whose price arrives as a string, and its normalization
(the price coerced to a number). -/
def rawProductBody : Payload :=
  [("description", JValue.str "red book"), ("price", JValue.str "1")]

/-- The normalized form of `rawProductBody`. -/
def normalizedProductBody : Payload :=
  [("description", JValue.str "red book"), ("price", JValue.num 1)]

theorem createValidator_idempotent_witness :
    createValidator createProductSchema rawProductBody = Except.ok normalizedProductBody ∧
    createValidator createProductSchema normalizedProductBody =
      Except.ok normalizedProductBody := by
  constructor
  · rfl
  · exact createValidator_idempotent createProductSchema rawProductBody
      normalizedProductBody rfl

/-- C7: any payload omitting a field the schema marks required is rejected,
and the rejection's `details` has an entry whose path includes the missing
field's name. -/
theorem createValidator_missing_required (schema : Schema) (p : Payload) (field : String)
    (rule : FieldRule) (hmem : (field, rule) ∈ schema) (hreq : rule.required = true)
    (habs : p.lookup field = none) :
    ∃ e ds, createValidator schema p = Except.error e ∧ e.details = some ds ∧
      ∃ x, x ∈ ds ∧ field ∈ x.path := by
  have habs2 : (coercePayload schema p).lookup field = none :=
    lookup_coercePayload_none schema p field habs
  have hbase := checkField_absent_required (coercePayload schema p) field rule habs2 hreq
  have hne : checkField (coercePayload schema p) field rule ≠ [] := by
    rw [hbase]
    exact applyErrorOverride_ne_nil rule [requiredFailure field] (by simp)
  have hcol : collectFailures schema (coercePayload schema p) ≠ [] :=
    collectFailures_ne_nil schema (coercePayload schema p) field rule hmem hne
  refine ⟨_, _, createValidator_error_of_failures schema p hcol, rfl, ?_⟩
  rcases List.exists_mem_of_ne_nil _ hne with ⟨x, hx⟩
  refine ⟨x, mem_collectFailures schema (coercePayload schema p) field rule hmem x hx, ?_⟩
  rw [path_of_mem_checkField (coercePayload schema p) field rule x hx]
  exact List.mem_singleton.2 rfl

/-- A product body that omits the required price field. -/
def missingPriceBody : Payload := [("description", JValue.str "red book")]

theorem createValidator_missing_required_witness :
    ("price", ({ priceSchema with required := true } : FieldRule)) ∈ createProductSchema ∧
    ({ priceSchema with required := true } : FieldRule).required = true ∧
    missingPriceBody.lookup "price" = none ∧
    (∃ e ds, createValidator createProductSchema missingPriceBody = Except.error e ∧
      e.details = some ds ∧ ∃ x, x ∈ ds ∧ "price" ∈ x.path) := by
  refine ⟨by decide, rfl, rfl, ?_⟩
  exact createValidator_missing_required createProductSchema missingPriceBody "price"
    { priceSchema with required := true } (by decide) rfl rfl

/-- C1: for every schema and payload with two (or more) failing fields, the
validator factory rejects with a `details` list containing an entry for each
failing field — and this collect-all behaviour is requested explicitly
(`abortEarly: false`) rather than being the engine's default, under which a
rejection reports at most one failure. -/
theorem createValidator_collects_all_failures (schema : Schema) (p : Payload)
    (f g : String) (rf rg : FieldRule)
    (hf : (f, rf) ∈ schema) (hg : (g, rg) ∈ schema)
    (hff : checkField (coercePayload schema p) f rf ≠ [])
    (hgg : checkField (coercePayload schema p) g rg ≠ []) :
    (∃ e ds, createValidator schema p = Except.error e ∧ e.details = some ds ∧
      (∃ x, x ∈ ds ∧ x.path = [f]) ∧ (∃ y, y ∈ ds ∧ y.path = [g])) ∧
    joiDefaultOptions.abortEarly = true ∧
    createValidator schema p = Joi.validate p schema { abortEarly := false } ∧
    (∀ p2 e2 ds2, Joi.validate p2 schema joiDefaultOptions = Except.error e2 →
      e2.details = some ds2 → ds2.length ≤ 1) := by
  refine ⟨?_, rfl, rfl,
    fun p2 e2 ds2 he hds => joiValidate_default_details_short schema p2 e2 ds2 he hds⟩
  have hcol : collectFailures schema (coercePayload schema p) ≠ [] :=
    collectFailures_ne_nil schema (coercePayload schema p) f rf hf hff
  refine ⟨_, _, createValidator_error_of_failures schema p hcol, rfl, ?_, ?_⟩
  · rcases List.exists_mem_of_ne_nil _ hff with ⟨x, hx⟩
    exact ⟨x, mem_collectFailures schema (coercePayload schema p) f rf hf x hx,
      path_of_mem_checkField (coercePayload schema p) f rf x hx⟩
  · rcases List.exists_mem_of_ne_nil _ hgg with ⟨y, hy⟩
    exact ⟨y, mem_collectFailures schema (coercePayload schema p) g rg hg y hy,
      path_of_mem_checkField (coercePayload schema p) g rg y hy⟩

theorem createValidator_collects_all_failures_witness :
    (("description", ({ ftype := .jString, required := true } : FieldRule)) ∈
        createProductSchema ∧
      ("price", ({ priceSchema with required := true } : FieldRule)) ∈ createProductSchema ∧
      checkField (coercePayload createProductSchema []) "description"
        { ftype := .jString, required := true } ≠ [] ∧
      checkField (coercePayload createProductSchema []) "price"
        { priceSchema with required := true } ≠ []) ∧
    (∃ e ds, createValidator createProductSchema [] = Except.error e ∧
        e.details = some ds ∧
        (∃ x, x ∈ ds ∧ x.path = ["description"]) ∧ (∃ y, y ∈ ds ∧ y.path = ["price"])) ∧
    joiDefaultOptions.abortEarly = true ∧
    createValidator createProductSchema [] =
      Joi.validate [] createProductSchema { abortEarly := false } ∧
    (∀ p2 e2 ds2, Joi.validate p2 createProductSchema joiDefaultOptions = Except.error e2 →
      e2.details = some ds2 → ds2.length ≤ 1) := by
  refine ⟨⟨by decide, by decide, by decide, by decide⟩, ?_⟩
  exact createValidator_collects_all_failures createProductSchema [] "description" "price"
    { ftype := .jString, required := true } { priceSchema with required := true }
    (by decide) (by decide) (by decide) (by decide)

/-- C8: no field of the user signup schema is required, so the empty signup
body validates successfully; a POST /signup with an empty body therefore
takes the success branch — it flashes the "woohoo" success message and
redirects to /signup — and adds nothing to the "validationFailure"
category. -/
theorem postSignup_emptyBody_success (c : Conn) (hbody : c.body = []) :
    (∀ entry ∈ createUserSchema, entry.2.required = false) ∧
    createValidator createUserSchema [] = Except.ok [] ∧
    postSignup c = Except.ok
      { c with body := [], nextCall := some none,
               session := c.session.push "messageSuccess" ["woohoo"],
               redirectTo := some "/signup" } ∧
    (c.session.push "messageSuccess" ["woohoo"]).get "validationFailure" =
      c.session.get "validationFailure" := by
  refine ⟨by decide, rfl, ?_,
    FlashStore.get_push_ne c.session "messageSuccess" "validationFailure" ["woohoo"]
      (by decide)⟩
  unfold postSignup
  rw [validateForm_eq, hbody]
  rfl

theorem postSignup_emptyBody_success_witness :
    (connOf []).body = [] ∧
    postSignup (connOf []) = Except.ok
      { connOf [] with
          body := [], nextCall := some none,
          session := FlashStore.push [] "messageSuccess" ["woohoo"],
          redirectTo := some "/signup" } := by
  constructor
  · rfl
  · exact (postSignup_emptyBody_success (connOf []) rfl).2.2.1
